import Mathlib

set_option linter.unusedVariables false

/-!
Shallow embedding of the R2 dataset sync worker.

Python strings are modelled as `List Char` wherever the code slices or
strips them (object keys and bucket key-space selectors); plain opaque
strings (dataset ids, paths, error messages) stay `String`.  The local
dataset directory is modelled as `Option (List (List Char))`: `none` means
the directory does not exist, `some fs` lists the relative paths of the
files currently present in it (file contents are irrelevant to every
property considered here).  The S3-compatible object store is modelled by
`Store`: the pages its paginator yields for a given key-space selector,
an optional listing failure raised after the yielded pages, and the
outcome of each single-object download (`none` = success, `some msg` =
the operation raises with message `msg`).
-/

/-- One object entry of a listing page: source `obj["Key"]` / `obj.get("Size", 0)`. -/
structure RemoteObj where
  key : List Char
  size : Nat
deriving Repr, DecidableEq

/-- Store-call trace events: one `list` when the paginator is first consumed,
one `download k` per `client.download_file(bucket, k, dest)` call. -/
inductive SEvent where
  | list : SEvent
  | download (key : List Char) : SEvent
deriving Repr, DecidableEq

/-- Model of the object store as seen through one bucket: `pages` is what the
paginator yields for a given (already normalized) key-space selector,
`listFail` an error the lazy listing raises after those pages, `download`
the per-key download outcome. -/
structure Store where
  pages : List Char → List (List RemoteObj)
  listFail : List Char → Option String
  download : List Char → Option String

/-- Relative file paths present in the dataset directory; `none` = the
directory itself does not exist. -/
abbrev DirState := Option (List (List Char))

/-- Source `sync.py`: result dict of `sync_dataset`. -/
structure SyncResult where
  datasetId : String
  localPath : String
  alreadySynced : Bool
  bytesWritten : Nat
  objectCount : Nat
deriving Repr, DecidableEq

/-- Either the returned result dict or the raised `SyncError` message. -/
inductive SResult where
  | ok (r : SyncResult) : SResult
  | error (msg : String) : SResult
deriving Repr, DecidableEq

/-- Full outcome of one `sync_dataset` call: result or error, the final
dataset-directory state, and the trace of object-store calls made. -/
structure SyncOutcome where
  result : SResult
  dir : DirState
  events : List SEvent
deriving Repr, DecidableEq

/-- Python `s.lstrip("/")`: drop every leading `/`. -/
def lstripSlash (s : List Char) : List Char :=
  s.dropWhile (fun c => c = '/')

/-- Python `s.endswith("/")` for the one-character suffix `/`: the last
character, if any, is `/`. -/
def endsWithSlash : List Char → Bool
  | [] => false
  | [c] => c = '/'
  | _ :: rest => endsWithSlash rest

/-- Source `sync.py` `_normalize_prefix`: strip leading slashes, then append
a trailing slash when the result is non-empty and does not already end
with one.  (Renamed: Lean-side naming constraint.) -/
def normalize_pfx (p : List Char) : List Char :=
  let p := lstripSlash p
  if !p.isEmpty && !endsWithSlash p then p ++ ['/'] else p

/-- Python `key[len(pfx):].lstrip("/")`: the relative key of `key` under the
normalized selector `pfx`. -/
def relKey (pfx key : List Char) : List Char :=
  lstripSlash (key.drop pfx.length)

/-- An object's key survives both skip tests of the download loop: it does
not end in `/` and its stripped relative key is non-empty. -/
def eligKey (pfx key : List Char) : Bool :=
  !endsWithSlash key && !(relKey pfx key).isEmpty

/-- Name of the completion marker file `.sync_complete`. -/
def completeMarker : List Char := ".sync_complete".toList

/-- Name of the in-progress marker file `.sync_in_progress`. -/
def inProgressMarker : List Char := ".sync_in_progress".toList

/-- Membership test for a file in the (possibly missing) dataset directory. -/
def hasFile (dir : DirState) (p : List Char) : Bool :=
  match dir with
  | none => false
  | some fs => decide (p ∈ fs)

/-- Writing a file: creates it when absent; an overwrite leaves the name set
unchanged. -/
def addFile (fs : List (List Char)) (p : List Char) : List (List Char) :=
  if p ∈ fs then fs else fs ++ [p]

/-- Python `Path.unlink(missing_ok=True)`: the file is absent afterwards. -/
def removeFile (fs : List (List Char)) (p : List Char) : List (List Char) :=
  fs.filter (fun q => q ≠ p)

/-- Mutable state of the download loop: files written so far, the two
counters, and the object-store call trace. -/
structure LoopState where
  fs : List (List Char)
  bytes : Nat
  count : Nat
  events : List SEvent
deriving Repr, DecidableEq

/-- Outcome of the download loop: final state, or the first raised error
message together with the state at the moment it was raised. -/
inductive LoopRes where
  | ok (st : LoopState) : LoopRes
  | fail (msg : String) (st : LoopState) : LoopRes
deriving Repr, DecidableEq

/-- State carried by a loop outcome, error or not. -/
def LoopRes.state : LoopRes → LoopState
  | LoopRes.ok st => st
  | LoopRes.fail _ st => st

/-- Inner loop of `sync_dataset` over the entries of one listing page:
skip keys ending in `/`, skip empty relative keys, otherwise download
(recording the call), and on success write the file and bump both
counters. -/
def runObjs (dl : List Char → Option String) (pfx : List Char)
    (objs : List RemoteObj) (st : LoopState) : LoopRes :=
  match objs with
  | [] => LoopRes.ok st
  | obj :: rest =>
    if endsWithSlash obj.key then runObjs dl pfx rest st
    else
      let rel_key := relKey pfx obj.key
      if rel_key.isEmpty then runObjs dl pfx rest st
      else
        let st1 : LoopState := { st with events := st.events ++ [SEvent.download obj.key] }
        match dl obj.key with
        | some e => LoopRes.fail e st1
        | none =>
          runObjs dl pfx rest
            { st1 with
                fs := addFile st1.fs rel_key,
                bytes := st1.bytes + obj.size,
                count := st1.count + 1 }

/-- Outer loop of `sync_dataset` over the listing pages. -/
def runPages (dl : List Char → Option String) (pfx : List Char)
    (pages : List (List RemoteObj)) (st : LoopState) : LoopRes :=
  match pages with
  | [] => LoopRes.ok st
  | pg :: rest =>
    match runObjs dl pfx pg st with
    | LoopRes.fail e st1 => LoopRes.fail e st1
    | LoopRes.ok st1 => runPages dl pfx rest st1

/-- Directory contents when the active attempt begins: after the optional
`shutil.rmtree(local_path)` (when the directory exists and `overwrite` is
set) and the `local_path.mkdir(parents=True, exist_ok=True)`. -/
def initFs (dir : DirState) (overwrite : Bool) : List (List Char) :=
  (if dir.isSome && overwrite then (none : DirState) else dir).getD []

/-- Active attempt of `sync_dataset` (everything after the fast-path test):
optional `rmtree` plus `mkdir`, selector normalization, in-progress marker
write, paginated download loop, completion marker on success, `SyncError`
wrapping on failure, and the `finally` removal of the in-progress marker
on every exit of the attempt. -/
def syncActive (dataset_root dataset_id bucket : String) (pfx0 : List Char)
    (overwrite : Bool) (store : Store) (dir : DirState) : SyncOutcome :=
  let local_path := dataset_root ++ "/" ++ dataset_id
  let fs0 : List (List Char) := initFs dir overwrite
  let pfx := normalize_pfx pfx0
  let fs1 := addFile fs0 inProgressMarker
  let init : LoopState := { fs := fs1, bytes := 0, count := 0, events := [SEvent.list] }
  match runPages store.download pfx (store.pages pfx) init with
  | LoopRes.fail e st =>
    { result := SResult.error e,
      dir := some (removeFile st.fs inProgressMarker),
      events := st.events }
  | LoopRes.ok st =>
    match store.listFail pfx with
    | some e =>
      { result := SResult.error e,
        dir := some (removeFile st.fs inProgressMarker),
        events := st.events }
    | none =>
      { result := SResult.ok
          { datasetId := dataset_id, localPath := local_path,
            alreadySynced := false, bytesWritten := st.bytes, objectCount := st.count },
        dir := some (removeFile (addFile st.fs completeMarker) inProgressMarker),
        events := st.events }

/-- Source `sync.py` `sync_dataset`: fast path when the completion marker
exists and `overwrite` is false, otherwise the active attempt. -/
def sync_dataset (dataset_root dataset_id bucket : String) (pfx0 : List Char)
    (overwrite : Bool) (store : Store) (dir : DirState) : SyncOutcome :=
  let local_path := dataset_root ++ "/" ++ dataset_id
  if hasFile dir completeMarker && !overwrite then
    { result := SResult.ok
        { datasetId := dataset_id, localPath := local_path,
          alreadySynced := true, bytesWritten := 0, objectCount := 0 },
      dir := dir, events := [] }
  else
    syncActive dataset_root dataset_id bucket pfx0 overwrite store dir

/-- Source `sync.py` `dataset_status`: the dataset's local path iff the
completion marker file exists, else `none`.  The embedding takes no store
and returns no directory state: the function reads one marker and has no
other effect. -/
def dataset_status (dataset_root dataset_id : String) (dir : DirState) : Option String :=
  if hasFile dir completeMarker then some (dataset_root ++ "/" ++ dataset_id) else none

/-- Environment variables read by `config.py` (`None` = variable unset). -/
structure CEnv where
  r2_endpoint : Option String
  r2_region : Option String
  r2_access_key_id : Option String
  r2_secret_access_key : Option String
  aitk_r2_datasets_root : Option String
  r2_sync_bind_host : Option String
  r2_sync_bind_port : Option String
deriving Repr, DecidableEq

/-- Source `config.py` `Settings` fields. -/
structure Settings where
  r2_endpoint : String
  r2_region : Option String
  r2_access_key_id : String
  r2_secret_access_key : String
  dataset_root : String
  bind_host : String
  bind_port : Int
deriving Repr, DecidableEq

/-- Settings construction either succeeds or raises (RuntimeError message). -/
inductive SettingsRes where
  | ok (s : Settings) : SettingsRes
  | error (msg : String) : SettingsRes
deriving Repr, DecidableEq

/-- Python `s.rstrip("/")`: drop every trailing `/` of the endpoint URL. -/
def rstripSlash (s : String) : String :=
  String.mk ((s.toList.reverse.dropWhile (fun c => c = '/')).reverse)

/-- ASCII whitespace, for the surrounding whitespace `int()` tolerates. -/
def isPySpace (c : Char) : Bool :=
  c = ' ' || c = '\t' || c = '\n' || c = '\r'

/-- Strip surrounding whitespace from a character list. -/
def stripWs (cs : List Char) : List Char :=
  ((cs.dropWhile isPySpace).reverse.dropWhile isPySpace).reverse

/-- Value of a non-empty all-digit character list, else `none`. -/
def digitsVal (cs : List Char) : Option Nat :=
  if cs.isEmpty || !(cs.all Char.isDigit) then none
  else some (cs.foldl (fun acc c => acc * 10 + (c.toNat - 48)) 0)

/-- Python `int(s)` on the bind-port string, approximated by signed decimal
parsing of the whitespace-trimmed string; `none` models the raised
`ValueError`.  No claim depends on the exact accepted grammar. -/
def pyInt (s : String) : Option Int :=
  match stripWs s.toList with
  | '-' :: rest => (digitsVal rest).map (fun n => -(n : Int))
  | '+' :: rest => (digitsVal rest).map (fun n => (n : Int))
  | cs => (digitsVal cs).map (fun n => (n : Int))

/-- Source `config.py` `Settings.__init__` / `get_settings`: resolve each
variable with its default, convert the port, then raise when the endpoint
is empty after `rstrip("/")` or either credential is empty.  The `int()`
conversion happens before the two checks, as in the source. -/
def get_settings (env : CEnv) : SettingsRes :=
  let r2_endpoint := rstripSlash (env.r2_endpoint.getD "")
  let r2_region := env.r2_region
  let r2_access_key_id := env.r2_access_key_id.getD ""
  let r2_secret_access_key := env.r2_secret_access_key.getD ""
  let dataset_root := env.aitk_r2_datasets_root.getD "/app/ai-toolkit/datasets/r2"
  let bind_host := env.r2_sync_bind_host.getD "0.0.0.0"
  match pyInt (env.r2_sync_bind_port.getD "8080") with
  | none => SettingsRes.error "invalid literal for int() with base 10"
  | some bind_port =>
    if r2_endpoint = "" then
      SettingsRes.error "R2_ENDPOINT is required for the sync worker"
    else if r2_access_key_id = "" ∨ r2_secret_access_key = "" then
      SettingsRes.error "R2 access key/secret must be provided"
    else
      SettingsRes.ok
        { r2_endpoint := r2_endpoint, r2_region := r2_region,
          r2_access_key_id := r2_access_key_id,
          r2_secret_access_key := r2_secret_access_key,
          dataset_root := dataset_root, bind_host := bind_host,
          bind_port := bind_port }

/-- Environment variables read by `rp_handler._sync_from_r2`. -/
structure HEnv where
  r2_endpoint : Option String
  r2_access_key_id : Option String
  r2_secret_access_key : Option String
  r2_region : Option String
  dataset_root : Option String
deriving Repr, DecidableEq

/-- Result of `_sync_from_r2`: the local path on success, otherwise the
message of the exception it raises. -/
inductive HSyncRes where
  | ok (localPath : String) : HSyncRes
  | error (msg : String) : HSyncRes
deriving Repr, DecidableEq

/-- Full outcome of one `_sync_from_r2` call. -/
structure HOutcome where
  result : HSyncRes
  dir : DirState
  events : List SEvent
deriving Repr, DecidableEq

/-- Inner loop of `_sync_from_r2`: like the worker loop but the selector is
used raw (no normalization) and the skip test is
`key == pfx or key.endswith("/")` before the empty-relative-key test. -/
def runObjsH (dl : List Char → Option String) (pfx : List Char)
    (objs : List RemoteObj) (st : LoopState) : LoopRes :=
  match objs with
  | [] => LoopRes.ok st
  | obj :: rest =>
    if obj.key = pfx || endsWithSlash obj.key then runObjsH dl pfx rest st
    else
      let rel_path := relKey pfx obj.key
      if rel_path.isEmpty then runObjsH dl pfx rest st
      else
        let st1 : LoopState := { st with events := st.events ++ [SEvent.download obj.key] }
        match dl obj.key with
        | some e => LoopRes.fail e st1
        | none =>
          runObjsH dl pfx rest
            { st1 with
                fs := addFile st1.fs rel_path,
                bytes := st1.bytes + obj.size,
                count := st1.count + 1 }

/-- Outer page loop of `_sync_from_r2`. -/
def runPagesH (dl : List Char → Option String) (pfx : List Char)
    (pages : List (List RemoteObj)) (st : LoopState) : LoopRes :=
  match pages with
  | [] => LoopRes.ok st
  | pg :: rest =>
    match runObjsH dl pfx pg st with
    | LoopRes.fail e st1 => LoopRes.fail e st1
    | LoopRes.ok st1 => runPagesH dl pfx rest st1

/-- Source `rp_handler.py` `_sync_from_r2`: per-request credential check
(RuntimeError when endpoint or either credential is unset or empty),
`makedirs`, early return when the completion marker exists, raw-selector
listing and download loop, completion marker write, and wrapping of store
errors as `RuntimeError("R2 sync failed: ...")`. -/
def _sync_from_r2 (env : HEnv) (dataset_id bucket : String) (pfx : List Char)
    (store : Store) (dir : DirState) : HOutcome :=
  let endpoint_url := env.r2_endpoint.getD ""
  let access_key := env.r2_access_key_id.getD ""
  let secret_key := env.r2_secret_access_key.getD ""
  if endpoint_url = "" ∨ access_key = "" ∨ secret_key = "" then
    { result := HSyncRes.error "R2_ENDPOINT, R2_ACCESS_KEY_ID, and R2_SECRET_ACCESS_KEY must be set",
      dir := dir, events := [] }
  else
    let local_root := env.dataset_root.getD "/workspace/datasets"
    let local_path := local_root ++ "/" ++ dataset_id
    let fs0 : List (List Char) := dir.getD []
    if decide (completeMarker ∈ fs0) then
      { result := HSyncRes.ok local_path, dir := some fs0, events := [] }
    else
      let init : LoopState := { fs := fs0, bytes := 0, count := 0, events := [SEvent.list] }
      match runPagesH store.download pfx (store.pages pfx) init with
      | LoopRes.fail e st =>
        { result := HSyncRes.error ("R2 sync failed: " ++ e),
          dir := some st.fs, events := st.events }
      | LoopRes.ok st =>
        match store.listFail pfx with
        | some e =>
          { result := HSyncRes.error ("R2 sync failed: " ++ e),
            dir := some st.fs, events := st.events }
        | none =>
          { result := HSyncRes.ok local_path,
            dir := some (addFile st.fs completeMarker), events := st.events }

/-- Per-request response of the serverless handler's R2 branch: either the
error dict `{"error": msg}` or a success (job execution after a successful
sync is an out-of-scope collaborator and is represented by the synced
local path it receives). -/
inductive HandlerResp where
  | errorResp (msg : String) : HandlerResp
  | okResp (localPath : String) : HandlerResp
deriving Repr, DecidableEq

/-- Source `rp_handler.py` `handler`, R2 branch: field validation, then
`_sync_from_r2`; any exception it raises is caught and returned as the
per-request error response. -/
def handler_r2 (env : HEnv) (dataset_id bucket : String) (pfx : List Char)
    (store : Store) (dir : DirState) : HandlerResp × DirState × List SEvent :=
  if dataset_id = "" ∨ bucket = "" ∨ pfx = [] then
    (HandlerResp.errorResp "r2_dataset must include datasetId, bucket, and prefix", dir, [])
  else
    let out := _sync_from_r2 env dataset_id bucket pfx store dir
    match out.result with
    | HSyncRes.error e => (HandlerResp.errorResp e, out.dir, out.events)
    | HSyncRes.ok localPath => (HandlerResp.okResp localPath, out.dir, out.events)

/-- Loop state at the start of the active attempt: the in-progress marker
has just been written and one listing request is being issued. -/
def loopInit (dir : DirState) (overwrite : Bool) : LoopState :=
  { fs := addFile (initFs dir overwrite) inProgressMarker,
    bytes := 0, count := 0, events := [SEvent.list] }

/-- The eligible (downloadable) objects of a listing: all page entries whose
key neither ends in `/` nor strips to an empty relative key under the
normalized selector. -/
def eligObjs (store : Store) (p0 : List Char) : List RemoteObj :=
  ((store.pages (normalize_pfx p0)).flatten).filter
    (fun o => eligKey (normalize_pfx p0) o.key)

/-- The same store with every ineligible (placeholder or selector-self)
object removed from its listing pages. -/
def filterStoreElig (store : Store) : Store :=
  { store with
      pages := fun p => (store.pages p).map (fun pg => pg.filter (fun o => eligKey p o.key)) }

/-- Demo store of the specification's example scenario: two images and one
directory placeholder under `datasets/catA/`. -/
def exStore : Store :=
  { pages := fun _ => [[ { key := "datasets/catA/img1.png".toList, size := 100 },
                         { key := "datasets/catA/img2.png".toList, size := 200 },
                         { key := "datasets/catA/".toList, size := 0 } ]],
    listFail := fun _ => none,
    download := fun _ => none }

/-- Demo store whose listing names both marker files as remote objects and
whose third download fails. -/
def cexStore : Store :=
  { pages := fun _ => [[ { key := "p/.sync_complete".toList, size := 5 },
                         { key := "p/.sync_in_progress".toList, size := 4 },
                         { key := "p/x".toList, size := 3 } ]],
    listFail := fun _ => none,
    download := fun k => if k = "p/x".toList then some "boom" else none }

/-- Demo store with an empty listing. -/
def emptyStore : Store :=
  { pages := fun _ => [], listFail := fun _ => none, download := fun _ => none }

/-- Demo handler environment with the endpoint variable unset. -/
def henvMissing : HEnv :=
  { r2_endpoint := none, r2_access_key_id := some "k",
    r2_secret_access_key := some "s", r2_region := none, dataset_root := none }

/-- Demo worker environment with the endpoint variable unset. -/
def cenvMissing : CEnv :=
  { r2_endpoint := none, r2_region := none, r2_access_key_id := some "k",
    r2_secret_access_key := some "s", aitk_r2_datasets_root := none,
    r2_sync_bind_host := none, r2_sync_bind_port := none }

/-- Demo store with ordinary keys whose second download fails. -/
def failStore : Store :=
  { pages := fun _ => [[ { key := "p/a".toList, size := 2 },
                         { key := "p/x".toList, size := 3 } ]],
    listFail := fun _ => none,
    download := fun k => if k = "p/x".toList then some "boom" else none }

/-- The two marker file names differ. -/
theorem markers_ne : completeMarker ≠ inProgressMarker := by decide

/-- A written file is present afterwards. -/
theorem addFile_mem_self (fs : List (List Char)) (p : List Char) : p ∈ addFile fs p := by
  unfold addFile
  split
  · assumption
  · simp

/-- Writing one file keeps every file already present. -/
theorem addFile_mem_of_mem (fs : List (List Char)) (p x : List Char) (h : x ∈ fs) :
    x ∈ addFile fs p := by
  unfold addFile
  split
  · exact h
  · simp [h]

/-- Membership after a write. -/
theorem mem_addFile_iff (fs : List (List Char)) (p x : List Char) :
    x ∈ addFile fs p ↔ x ∈ fs ∨ x = p := by
  unfold addFile
  split
  · next hin => constructor
                · exact fun h => Or.inl h
                · rintro (h | rfl) <;> assumption
  · simp

/-- Membership after a removal. -/
theorem mem_removeFile_iff (fs : List (List Char)) (p x : List Char) :
    x ∈ removeFile fs p ↔ x ∈ fs ∧ x ≠ p := by
  unfold removeFile
  simp

/-- A removed file is absent afterwards. -/
theorem removeFile_not_mem (fs : List (List Char)) (p : List Char) :
    p ∉ removeFile fs p := by
  simp [mem_removeFile_iff]

/-- Unfolding of the inner download loop at a cons, phrased through the
combined eligibility test. -/
theorem runObjs_cons (dl : List Char → Option String) (pfx : List Char)
    (obj : RemoteObj) (rest : List RemoteObj) (st : LoopState) :
    runObjs dl pfx (obj :: rest) st =
      if eligKey pfx obj.key then
        match dl obj.key with
        | some e => LoopRes.fail e { st with events := st.events ++ [SEvent.download obj.key] }
        | none =>
          runObjs dl pfx rest
            { fs := addFile st.fs (relKey pfx obj.key),
              bytes := st.bytes + obj.size,
              count := st.count + 1,
              events := st.events ++ [SEvent.download obj.key] }
      else runObjs dl pfx rest st := by
  cases h1 : endsWithSlash obj.key with
  | true =>
    have he : eligKey pfx obj.key = false := by simp [eligKey, h1]
    rw [he]
    conv_lhs => rw [runObjs.eq_def]
    simp [h1]
  | false =>
    cases h2 : (relKey pfx obj.key).isEmpty with
    | true =>
      have he : eligKey pfx obj.key = false := by simp [eligKey, h1, h2]
      rw [he]
      conv_lhs => rw [runObjs.eq_def]
      simp [h1, h2]
    | false =>
      have he : eligKey pfx obj.key = true := by simp [eligKey, h1, h2]
      rw [he]
      conv_lhs => rw [runObjs.eq_def]
      simp [h1, h2]

/-- Files only accumulate during the inner loop. -/
theorem runObjs_fs_mono (dl : List Char → Option String) (pfx : List Char)
    (objs : List RemoteObj) (st : LoopState) (x : List Char) (h : x ∈ st.fs) :
    x ∈ (runObjs dl pfx objs st).state.fs := by
  induction objs generalizing st with
  | nil => simpa [runObjs, LoopRes.state] using h
  | cons obj rest ih =>
    rw [runObjs_cons]
    by_cases he : eligKey pfx obj.key = true
    · rw [if_pos he]
      cases hd : dl obj.key with
      | some e => simpa [LoopRes.state] using h
      | none => exact ih _ (addFile_mem_of_mem _ _ _ h)
    · rw [if_neg he]
      exact ih _ h

/-- Events only accumulate during the inner loop. -/
theorem runObjs_events_mono (dl : List Char → Option String) (pfx : List Char)
    (objs : List RemoteObj) (st : LoopState) (ev : SEvent) (h : ev ∈ st.events) :
    ev ∈ (runObjs dl pfx objs st).state.events := by
  induction objs generalizing st with
  | nil => simpa [runObjs, LoopRes.state] using h
  | cons obj rest ih =>
    rw [runObjs_cons]
    by_cases he : eligKey pfx obj.key = true
    · rw [if_pos he]
      cases hd : dl obj.key with
      | some e => simp [LoopRes.state, h]
      | none => exact ih _ (by simp [h])
    · rw [if_neg he]
      exact ih _ h

/-- Every file present after the inner loop was present before or is the
relative key of an eligible listed object. -/
theorem runObjs_fs_new (dl : List Char → Option String) (pfx : List Char)
    (objs : List RemoteObj) (st : LoopState) (x : List Char)
    (h : x ∈ (runObjs dl pfx objs st).state.fs) :
    x ∈ st.fs ∨ ∃ o, o ∈ objs ∧ eligKey pfx o.key = true ∧ x = relKey pfx o.key := by
  induction objs generalizing st with
  | nil =>
    left
    simpa [runObjs, LoopRes.state] using h
  | cons obj rest ih =>
    rw [runObjs_cons] at h
    by_cases he : eligKey pfx obj.key = true
    · rw [if_pos he] at h
      cases hd : dl obj.key with
      | some e =>
        rw [hd] at h
        exact Or.inl (by simpa [LoopRes.state] using h)
      | none =>
        rw [hd] at h
        rcases ih _ h with h1 | ⟨o, ho, helig, hx⟩
        · rcases (mem_addFile_iff _ _ _).1 h1 with h2 | h2
          · exact Or.inl h2
          · exact Or.inr ⟨obj, by simp, he, h2⟩
        · exact Or.inr ⟨o, by simp [ho], helig, hx⟩
    · rw [if_neg he] at h
      rcases ih _ h with h1 | ⟨o, ho, helig, hx⟩
      · exact Or.inl h1
      · exact Or.inr ⟨o, by simp [ho], helig, hx⟩

/-- Every download event after the inner loop was present before or belongs
to an eligible listed object. -/
theorem runObjs_events_new (dl : List Char → Option String) (pfx : List Char)
    (objs : List RemoteObj) (st : LoopState) (k : List Char)
    (h : SEvent.download k ∈ (runObjs dl pfx objs st).state.events) :
    SEvent.download k ∈ st.events ∨ ∃ o, o ∈ objs ∧ o.key = k ∧ eligKey pfx o.key = true := by
  induction objs generalizing st with
  | nil =>
    left
    simpa [runObjs, LoopRes.state] using h
  | cons obj rest ih =>
    rw [runObjs_cons] at h
    by_cases he : eligKey pfx obj.key = true
    · rw [if_pos he] at h
      cases hd : dl obj.key with
      | some e =>
        rw [hd] at h
        simp only [LoopRes.state, List.mem_append, List.mem_singleton] at h
        rcases h with h1 | h1
        · exact Or.inl h1
        · exact Or.inr ⟨obj, by simp, by injection h1.symm, he⟩
      | none =>
        rw [hd] at h
        rcases ih _ h with h1 | ⟨o, ho, hk, helig⟩
        · simp only [List.mem_append, List.mem_singleton] at h1
          rcases h1 with h2 | h2
          · exact Or.inl h2
          · exact Or.inr ⟨obj, by simp, by injection h2.symm, he⟩
        · exact Or.inr ⟨o, by simp [ho], hk, helig⟩
    · rw [if_neg he] at h
      rcases ih _ h with h1 | ⟨o, ho, hk, helig⟩
      · exact Or.inl h1
      · exact Or.inr ⟨o, by simp [ho], hk, helig⟩

/-- If every recorded successful download already has its file on disk, this
still holds after running the inner loop. -/
theorem runObjs_good_files (dl : List Char → Option String) (pfx : List Char)
    (objs : List RemoteObj) (st : LoopState)
    (hpre : ∀ k, SEvent.download k ∈ st.events → dl k = none → relKey pfx k ∈ st.fs) :
    ∀ k, SEvent.download k ∈ (runObjs dl pfx objs st).state.events → dl k = none →
      relKey pfx k ∈ (runObjs dl pfx objs st).state.fs := by
  induction objs generalizing st with
  | nil => simpa [runObjs, LoopRes.state] using hpre
  | cons obj rest ih =>
    rw [runObjs_cons]
    by_cases he : eligKey pfx obj.key = true
    · rw [if_pos he]
      cases hd : dl obj.key with
      | some e =>
        intro k hk hdk
        simp only [LoopRes.state, List.mem_append, List.mem_singleton] at hk ⊢
        rcases hk with h1 | h1
        · exact hpre k h1 hdk
        · have hke : k = obj.key := by injection h1
          rw [hke] at hdk
          rw [hdk] at hd
          cases hd
      | none =>
        apply ih
        intro k hk hdk
        simp only [List.mem_append, List.mem_singleton] at hk
        rcases hk with h1 | h1
        · exact addFile_mem_of_mem _ _ _ (hpre k h1 hdk)
        · have hke : k = obj.key := by injection h1
          rw [hke]
          exact addFile_mem_self _ _
    · rw [if_neg he]
      exact ih _ hpre

/-- A failing inner loop fails with the message of some failing download. -/
theorem runObjs_fail_cause (dl : List Char → Option String) (pfx : List Char)
    (objs : List RemoteObj) (st : LoopState) (e : String) (st' : LoopState)
    (h : runObjs dl pfx objs st = LoopRes.fail e st') :
    ∃ k, dl k = some e := by
  induction objs generalizing st with
  | nil => cases h
  | cons obj rest ih =>
    rw [runObjs_cons] at h
    by_cases he : eligKey pfx obj.key = true
    · rw [if_pos he] at h
      cases hd : dl obj.key with
      | some e2 =>
        rw [hd] at h
        cases h
        exact ⟨obj.key, hd⟩
      | none =>
        rw [hd] at h
        exact ih _ h
    · rw [if_neg he] at h
      exact ih _ h

/-- Counter bookkeeping of a successful inner loop: exactly the eligible
objects are counted and their sizes summed. -/
theorem runObjs_ok_counts (dl : List Char → Option String) (pfx : List Char)
    (objs : List RemoteObj) (st : LoopState) (st' : LoopState)
    (h : runObjs dl pfx objs st = LoopRes.ok st') :
    st'.count = st.count + (objs.filter (fun o => eligKey pfx o.key)).length ∧
    st'.bytes = st.bytes + ((objs.filter (fun o => eligKey pfx o.key)).map RemoteObj.size).sum := by
  induction objs generalizing st with
  | nil =>
    cases h
    simp
  | cons obj rest ih =>
    rw [runObjs_cons] at h
    by_cases he : eligKey pfx obj.key = true
    · rw [if_pos he] at h
      cases hd : dl obj.key with
      | some e2 =>
        rw [hd] at h
        cases h
      | none =>
        rw [hd] at h
        have hih := ih _ h
        simp only [List.filter_cons, he, if_true, List.length_cons, List.map_cons,
          List.sum_cons] at hih ⊢
        omega
    · rw [if_neg he] at h
      have hih := ih _ h
      have he2 : eligKey pfx obj.key = false := by simpa using he
      simp only [List.filter_cons, he2, if_false]
      exact hih

/-- When no listed object is eligible, the inner loop does nothing. -/
theorem runObjs_skip_all (dl : List Char → Option String) (pfx : List Char)
    (objs : List RemoteObj) (st : LoopState)
    (h : ∀ o ∈ objs, eligKey pfx o.key = false) :
    runObjs dl pfx objs st = LoopRes.ok st := by
  induction objs generalizing st with
  | nil => rfl
  | cons obj rest ih =>
    rw [runObjs_cons]
    rw [if_neg (by simp [h obj (by simp)])]
    exact ih _ (fun o ho => h o (by simp [ho]))

/-- Ineligible objects can be dropped from the page without changing the
inner loop's behaviour. -/
theorem runObjs_filter_eq (dl : List Char → Option String) (pfx : List Char)
    (objs : List RemoteObj) (st : LoopState) :
    runObjs dl pfx (objs.filter (fun o => eligKey pfx o.key)) st = runObjs dl pfx objs st := by
  induction objs generalizing st with
  | nil => rfl
  | cons obj rest ih =>
    by_cases he : eligKey pfx obj.key = true
    · have hf : (obj :: rest).filter (fun o => eligKey pfx o.key)
          = obj :: rest.filter (fun o => eligKey pfx o.key) := by
        simp [List.filter_cons, he]
      rw [hf, runObjs_cons, runObjs_cons, if_pos he, if_pos he]
      cases hd : dl obj.key with
      | some e => rfl
      | none => exact ih _
    · have he2 : eligKey pfx obj.key = false := by simpa using he
      have hf : (obj :: rest).filter (fun o => eligKey pfx o.key)
          = rest.filter (fun o => eligKey pfx o.key) := by
        simp [List.filter_cons, he2]
      rw [hf, runObjs_cons, if_neg he]
      exact ih _

/-- Files only accumulate across pages. -/
theorem runPages_fs_mono (dl : List Char → Option String) (pfx : List Char)
    (pages : List (List RemoteObj)) (st : LoopState) (x : List Char) (h : x ∈ st.fs) :
    x ∈ (runPages dl pfx pages st).state.fs := by
  induction pages generalizing st with
  | nil => simpa [runPages, LoopRes.state] using h
  | cons pg rest ih =>
    simp only [runPages]
    have hobj := runObjs_fs_mono dl pfx pg st x h
    cases hrr : runObjs dl pfx pg st with
    | fail e st1 =>
      rw [hrr] at hobj
      exact hobj
    | ok st1 =>
      rw [hrr] at hobj
      exact ih st1 hobj

/-- Events only accumulate across pages. -/
theorem runPages_events_mono (dl : List Char → Option String) (pfx : List Char)
    (pages : List (List RemoteObj)) (st : LoopState) (ev : SEvent) (h : ev ∈ st.events) :
    ev ∈ (runPages dl pfx pages st).state.events := by
  induction pages generalizing st with
  | nil => simpa [runPages, LoopRes.state] using h
  | cons pg rest ih =>
    simp only [runPages]
    have hobj := runObjs_events_mono dl pfx pg st ev h
    cases hrr : runObjs dl pfx pg st with
    | fail e st1 =>
      rw [hrr] at hobj
      exact hobj
    | ok st1 =>
      rw [hrr] at hobj
      exact ih st1 hobj

/-- Every file present after the page loop was present before or is the
relative key of an eligible listed object. -/
theorem runPages_fs_new (dl : List Char → Option String) (pfx : List Char)
    (pages : List (List RemoteObj)) (st : LoopState) (x : List Char)
    (h : x ∈ (runPages dl pfx pages st).state.fs) :
    x ∈ st.fs ∨ ∃ o, o ∈ pages.flatten ∧ eligKey pfx o.key = true ∧ x = relKey pfx o.key := by
  induction pages generalizing st with
  | nil =>
    left
    simpa [runPages, LoopRes.state] using h
  | cons pg rest ih =>
    simp only [runPages] at h
    cases hrr : runObjs dl pfx pg st with
    | fail e st1 =>
      rw [hrr] at h
      rcases runObjs_fs_new dl pfx pg st x (by rw [hrr]; exact h) with h1 | ⟨o, ho, helig, hx⟩
      · exact Or.inl h1
      · exact Or.inr ⟨o, by simp [ho], helig, hx⟩
    | ok st1 =>
      rw [hrr] at h
      rcases ih st1 h with h1 | ⟨o, ho, helig, hx⟩
      · rcases runObjs_fs_new dl pfx pg st x (by rw [hrr]; exact h1) with h2 | ⟨o, ho, helig, hx⟩
        · exact Or.inl h2
        · exact Or.inr ⟨o, by simp [ho], helig, hx⟩
      · exact Or.inr ⟨o, by simp [ho], helig, hx⟩

/-- Every download event after the page loop was present before or belongs
to an eligible listed object. -/
theorem runPages_events_new (dl : List Char → Option String) (pfx : List Char)
    (pages : List (List RemoteObj)) (st : LoopState) (k : List Char)
    (h : SEvent.download k ∈ (runPages dl pfx pages st).state.events) :
    SEvent.download k ∈ st.events ∨
      ∃ o, o ∈ pages.flatten ∧ o.key = k ∧ eligKey pfx o.key = true := by
  induction pages generalizing st with
  | nil =>
    left
    simpa [runPages, LoopRes.state] using h
  | cons pg rest ih =>
    simp only [runPages] at h
    cases hrr : runObjs dl pfx pg st with
    | fail e st1 =>
      rw [hrr] at h
      rcases runObjs_events_new dl pfx pg st k (by rw [hrr]; exact h) with h1 | ⟨o, ho, hk, helig⟩
      · exact Or.inl h1
      · exact Or.inr ⟨o, by simp [ho], hk, helig⟩
    | ok st1 =>
      rw [hrr] at h
      rcases ih st1 h with h1 | ⟨o, ho, hk, helig⟩
      · rcases runObjs_events_new dl pfx pg st k (by rw [hrr]; exact h1) with h2 | ⟨o, ho, hk, helig⟩
        · exact Or.inl h2
        · exact Or.inr ⟨o, by simp [ho], hk, helig⟩
      · exact Or.inr ⟨o, by simp [ho], hk, helig⟩

/-- If every recorded successful download already has its file on disk, this
still holds after the page loop. -/
theorem runPages_good_files (dl : List Char → Option String) (pfx : List Char)
    (pages : List (List RemoteObj)) (st : LoopState)
    (hpre : ∀ k, SEvent.download k ∈ st.events → dl k = none → relKey pfx k ∈ st.fs) :
    ∀ k, SEvent.download k ∈ (runPages dl pfx pages st).state.events → dl k = none →
      relKey pfx k ∈ (runPages dl pfx pages st).state.fs := by
  induction pages generalizing st with
  | nil => simpa [runPages, LoopRes.state] using hpre
  | cons pg rest ih =>
    simp only [runPages]
    have hobj := runObjs_good_files dl pfx pg st hpre
    cases hrr : runObjs dl pfx pg st with
    | fail e st1 =>
      rw [hrr] at hobj
      exact hobj
    | ok st1 =>
      rw [hrr] at hobj
      exact ih st1 hobj

/-- A failing page loop fails with the message of some failing download. -/
theorem runPages_fail_cause (dl : List Char → Option String) (pfx : List Char)
    (pages : List (List RemoteObj)) (st : LoopState) (e : String) (st' : LoopState)
    (h : runPages dl pfx pages st = LoopRes.fail e st') :
    ∃ k, dl k = some e := by
  induction pages generalizing st with
  | nil => cases h
  | cons pg rest ih =>
    simp only [runPages] at h
    cases hrr : runObjs dl pfx pg st with
    | fail e2 st1 =>
      rw [hrr] at h
      have he : e2 = e := by cases h; rfl
      exact he ▸ runObjs_fail_cause dl pfx pg st e2 st1 hrr
    | ok st1 =>
      rw [hrr] at h
      exact ih st1 h

/-- Counter bookkeeping of a successful page loop: exactly the eligible
objects across all pages are counted and their sizes summed. -/
theorem runPages_ok_counts (dl : List Char → Option String) (pfx : List Char)
    (pages : List (List RemoteObj)) (st : LoopState) (st' : LoopState)
    (h : runPages dl pfx pages st = LoopRes.ok st') :
    st'.count = st.count + (pages.flatten.filter (fun o => eligKey pfx o.key)).length ∧
    st'.bytes = st.bytes +
      ((pages.flatten.filter (fun o => eligKey pfx o.key)).map RemoteObj.size).sum := by
  induction pages generalizing st with
  | nil =>
    cases h
    simp
  | cons pg rest ih =>
    simp only [runPages] at h
    cases hrr : runObjs dl pfx pg st with
    | fail e st1 =>
      rw [hrr] at h
      cases h
    | ok st1 =>
      rw [hrr] at h
      have h1 := runObjs_ok_counts dl pfx pg st st1 hrr
      have h2 := ih st1 h
      simp only [List.flatten_cons, List.filter_append, List.length_append,
        List.map_append, List.sum_append]
      omega

/-- When no listed object of any page is eligible, the page loop does
nothing. -/
theorem runPages_skip_all (dl : List Char → Option String) (pfx : List Char)
    (pages : List (List RemoteObj)) (st : LoopState)
    (h : ∀ o ∈ pages.flatten, eligKey pfx o.key = false) :
    runPages dl pfx pages st = LoopRes.ok st := by
  induction pages generalizing st with
  | nil => rfl
  | cons pg rest ih =>
    simp only [runPages]
    rw [runObjs_skip_all dl pfx pg st (fun o ho => h o (by simp [ho]))]
    exact ih _ (fun o ho => h o (by simp [ho]))

/-- Ineligible objects can be dropped from every page without changing the
page loop's behaviour. -/
theorem runPages_filter_eq (dl : List Char → Option String) (pfx : List Char)
    (pages : List (List RemoteObj)) (st : LoopState) :
    runPages dl pfx (pages.map (fun pg => pg.filter (fun o => eligKey pfx o.key))) st
      = runPages dl pfx pages st := by
  induction pages generalizing st with
  | nil => rfl
  | cons pg rest ih =>
    simp only [List.map_cons, runPages, runObjs_filter_eq]
    cases hrr : runObjs dl pfx pg st with
    | fail e st1 => rfl
    | ok st1 => exact ih _

/-- When the completion marker exists and overwrite is off, `sync_dataset`
returns the cached result and touches nothing. -/
theorem sync_fastPath (root id bucket : String) (p0 : List Char) (store : Store)
    (dir : DirState) (h : hasFile dir completeMarker = true) :
    sync_dataset root id bucket p0 false store dir =
      { result := SResult.ok
          { datasetId := id, localPath := root ++ "/" ++ id,
            alreadySynced := true, bytesWritten := 0, objectCount := 0 },
        dir := dir, events := [] } := by
  unfold sync_dataset
  rw [if_pos (by simp [h])]

/-- When the fast-path test fails, `sync_dataset` is the active attempt. -/
theorem sync_active_eq (root id bucket : String) (p0 : List Char) (ow : Bool)
    (store : Store) (dir : DirState)
    (h : (hasFile dir completeMarker && !ow) = false) :
    sync_dataset root id bucket p0 ow store dir = syncActive root id bucket p0 ow store dir := by
  unfold sync_dataset
  rw [if_neg (by simp [h])]

/-- The active attempt, written through `loopInit` for case analysis. -/
theorem syncActive_cases (root id bucket : String) (p0 : List Char) (ow : Bool)
    (store : Store) (dir : DirState) :
    syncActive root id bucket p0 ow store dir =
      match runPages store.download (normalize_pfx p0) (store.pages (normalize_pfx p0))
          (loopInit dir ow) with
      | LoopRes.fail e st =>
        { result := SResult.error e,
          dir := some (removeFile st.fs inProgressMarker), events := st.events }
      | LoopRes.ok st =>
        match store.listFail (normalize_pfx p0) with
        | some e =>
          { result := SResult.error e,
            dir := some (removeFile st.fs inProgressMarker), events := st.events }
        | none =>
          { result := SResult.ok
              { datasetId := id, localPath := root ++ "/" ++ id,
                alreadySynced := false, bytesWritten := st.bytes, objectCount := st.count },
            dir := some (removeFile (addFile st.fs completeMarker) inProgressMarker),
            events := st.events } := rfl

/-- When the fast-path test fails, the completion marker is not among the
files the active attempt starts from. -/
theorem marker_not_in_initFs (dir : DirState) (ow : Bool)
    (h : (hasFile dir completeMarker && !ow) = false) :
    completeMarker ∉ initFs dir ow := by
  unfold initFs
  cases dir with
  | none => cases ow <;> simp
  | some fs =>
    cases ow with
    | true => simp
    | false =>
      simp only [hasFile, Bool.not_false, Bool.and_true, decide_eq_false_iff_not] at h
      simpa using h

/-- The in-progress marker is absent from any directory just purged of it. -/
theorem inProgress_absent (fs : List (List Char)) :
    hasFile (some (removeFile fs inProgressMarker)) inProgressMarker = false := by
  simp [hasFile, mem_removeFile_iff]

/-- Every active attempt issues the listing request. -/
theorem sync_active_has_list (root id bucket : String) (p0 : List Char) (ow : Bool)
    (store : Store) (dir : DirState)
    (h : (hasFile dir completeMarker && !ow) = false) :
    SEvent.list ∈ (sync_dataset root id bucket p0 ow store dir).events := by
  rw [sync_active_eq root id bucket p0 ow store dir h, syncActive_cases]
  have hm := runPages_events_mono store.download (normalize_pfx p0)
    (store.pages (normalize_pfx p0)) (loopInit dir ow) SEvent.list (by simp [loopInit])
  cases hrp : runPages store.download (normalize_pfx p0) (store.pages (normalize_pfx p0))
      (loopInit dir ow) with
  | fail e st =>
    rw [hrp] at hm
    exact hm
  | ok st =>
    rw [hrp] at hm
    cases hlf : store.listFail (normalize_pfx p0) with
    | some e => exact hm
    | none => exact hm

/-- C1: for every sync request whose dataset directory already contains the
completion marker and whose overwrite flag is false, `sync_dataset` returns
`alreadySynced = true`, `bytesWritten = 0`, `objectCount = 0` and
`localPath = datasetRoot/datasetId`, leaves the directory untouched, and
performs no object-store listing or download calls. -/
theorem c1_already_synced_noop (root id bucket : String) (p0 : List Char)
    (store : Store) (dir : DirState)
    (h : hasFile dir completeMarker = true) :
    sync_dataset root id bucket p0 false store dir =
      { result := SResult.ok
          { datasetId := id, localPath := root ++ "/" ++ id,
            alreadySynced := true, bytesWritten := 0, objectCount := 0 },
        dir := dir, events := [] } :=
  sync_fastPath root id bucket p0 store dir h

/-- Witness for C1 at a concrete marked directory and a store whose use
would be visible in the trace. -/
theorem c1_witness :
    hasFile (some [completeMarker]) completeMarker = true ∧
    sync_dataset "/r" "d" "b" ("p".toList) false cexStore (some [completeMarker]) =
      { result := SResult.ok
          { datasetId := "d", localPath := "/r/d",
            alreadySynced := true, bytesWritten := 0, objectCount := 0 },
        dir := some [completeMarker], events := [] } :=
  ⟨by decide,
   c1_already_synced_noop "/r" "d" "b" ("p".toList) cexStore (some [completeMarker]) (by decide)⟩

/-- C6: after every sync call that starts an active attempt, whether it
returns a result or an error, the in-progress marker file is absent from
the dataset directory. -/
theorem c6_in_progress_always_cleared (root id bucket : String) (p0 : List Char) (ow : Bool)
    (store : Store) (dir : DirState)
    (h : (hasFile dir completeMarker && !ow) = false) :
    hasFile (sync_dataset root id bucket p0 ow store dir).dir inProgressMarker = false := by
  rw [sync_active_eq root id bucket p0 ow store dir h, syncActive_cases]
  cases hrp : runPages store.download (normalize_pfx p0) (store.pages (normalize_pfx p0))
      (loopInit dir ow) with
  | fail e st => exact inProgress_absent st.fs
  | ok st =>
    cases hlf : store.listFail (normalize_pfx p0) with
    | some e => exact inProgress_absent st.fs
    | none => exact inProgress_absent _

/-- Witness for C6 at a failing concrete sync. -/
theorem c6_witness :
    (hasFile (none : DirState) completeMarker && !false) = false ∧
    hasFile (sync_dataset "root" "d" "b" ("p".toList) false cexStore none).dir
      inProgressMarker = false :=
  ⟨by decide,
   c6_in_progress_always_cleared "root" "d" "b" ("p".toList) false cexStore none (by decide)⟩

/-- C9: the status lookup returns the dataset's local path iff the completion
marker exists, an absent value otherwise, and its answer is unchanged by
writing or removing the in-progress marker.  (The embedding of
`dataset_status` takes no store and returns no directory state: it makes no
network call and has no filesystem effect.) -/
theorem c9_status_reads_only_completion (root id : String) (dir : DirState) :
    (∀ p, dataset_status root id dir = some p ↔
        (hasFile dir completeMarker = true ∧ p = root ++ "/" ++ id))
    ∧ (dataset_status root id dir = none ↔ hasFile dir completeMarker = false)
    ∧ (∀ fs, dataset_status root id (some (addFile fs inProgressMarker))
          = dataset_status root id (some fs))
    ∧ (∀ fs, dataset_status root id (some (removeFile fs inProgressMarker))
          = dataset_status root id (some fs)) := by
  refine ⟨?_, ?_, ?_, ?_⟩
  · intro p
    by_cases h : hasFile dir completeMarker = true
    · simp [dataset_status, h, eq_comm]
    · simp [dataset_status, h]
  · by_cases h : hasFile dir completeMarker = true
    · simp [dataset_status, h]
    · simp only [Bool.not_eq_true] at h
      simp [dataset_status, h]
  · intro fs
    have hmem : (completeMarker ∈ addFile fs inProgressMarker) ↔ completeMarker ∈ fs := by
      rw [mem_addFile_iff]
      simp [markers_ne]
    simp [dataset_status, hasFile, hmem]
  · intro fs
    have hmem : (completeMarker ∈ removeFile fs inProgressMarker) ↔ completeMarker ∈ fs := by
      rw [mem_removeFile_iff]
      simp [markers_ne]
    simp [dataset_status, hasFile, hmem]

/-- C4: with `overwrite = true` on an existing directory, the sync behaves
exactly as on a fresh (deleted and recreated) directory — whatever the old
contents, markers included — and the fast path is not taken: the listing
request is issued. -/
theorem c4_overwrite_resets (root id bucket : String) (p0 : List Char) (store : Store)
    (fs : List (List Char)) :
    sync_dataset root id bucket p0 true store (some fs)
      = sync_dataset root id bucket p0 true store none
    ∧ SEvent.list ∈ (sync_dataset root id bucket p0 true store (some fs)).events := by
  constructor
  · rw [sync_active_eq root id bucket p0 true store (some fs) (by simp),
      sync_active_eq root id bucket p0 true store none (by simp),
      syncActive_cases, syncActive_cases]
    have h3 : loopInit (some fs) true = loopInit none true := by simp [loopInit, initFs]
    rw [h3]
  · exact sync_active_has_list root id bucket p0 true store (some fs) (by simp)


/-- A leading slash is dropped before normalization. -/
theorem normalize_cons_slash (t : List Char) : normalize_pfx ('/' :: t) = normalize_pfx t := by
  simp [normalize_pfx, lstripSlash, List.dropWhile_cons]

/-- Stripping leading slashes does nothing when the head is not a slash. -/
theorem lstrip_no_slash_head (c : Char) (t : List Char) (hc : ¬ c = '/') :
    lstripSlash (c :: t) = c :: t := by
  simp [lstripSlash, List.dropWhile_cons, hc]

/-- A selector with a slash appended ends in a slash. -/
theorem ends_append_slash (l : List Char) : endsWithSlash (l ++ ['/']) = true := by
  induction l with
  | nil => decide
  | cons c t ih =>
    cases ht : t ++ ['/'] with
    | nil => simp at ht
    | cons x xs =>
      rw [List.cons_append, ht]
      show endsWithSlash (x :: xs) = true
      rw [← ht]
      exact ih

/-- Appending a trailing slash to a selector that does not already end in
one yields the same normalized selector. -/
theorem normalize_trailing_slash (p0 : List Char) (h : endsWithSlash p0 = false) :
    normalize_pfx p0 = normalize_pfx (p0 ++ ['/']) := by
  induction p0 with
  | nil => decide
  | cons c t ih =>
    by_cases hc : c = '/'
    · subst hc
      have ht : t ≠ [] := by
        intro h0
        subst h0
        simp [endsWithSlash] at h
      have hht : endsWithSlash t = false := by
        cases t with
        | nil => exact absurd rfl ht
        | cons x t2 => exact h
      rw [show ('/' :: t) ++ ['/'] = '/' :: (t ++ ['/']) from rfl,
        normalize_cons_slash, normalize_cons_slash]
      exact ih hht
    · have h1 : lstripSlash (c :: t) = c :: t := lstrip_no_slash_head c t hc
      have h2 : lstripSlash ((c :: t) ++ ['/']) = (c :: t) ++ ['/'] := by
        rw [List.cons_append]
        exact lstrip_no_slash_head c _ hc
      have h3 : endsWithSlash ((c :: t) ++ ['/']) = true := ends_append_slash (c :: t)
      simp only [normalize_pfx, h1, h2, h, h3]
      simp

/-- C5: the worker normalizes the selector by stripping leading slashes and
appending a trailing slash when missing, so a selector without a trailing
slash and the same selector with one yield the same normalized selector and
identical sync outcomes on every store and directory state. -/
theorem c5_trailing_slash_equiv (p0 : List Char) (h : endsWithSlash p0 = false) :
    normalize_pfx p0 = normalize_pfx (p0 ++ ['/'])
    ∧ ∀ (root id bucket : String) (ow : Bool) (store : Store) (dir : DirState),
        sync_dataset root id bucket p0 ow store dir
          = sync_dataset root id bucket (p0 ++ ['/']) ow store dir := by
  have hn := normalize_trailing_slash p0 h
  refine ⟨hn, ?_⟩
  intro root id bucket ow store dir
  by_cases hf : (hasFile dir completeMarker && !ow) = true
  · unfold sync_dataset
    rw [if_pos hf, if_pos hf]
  · have hf2 : (hasFile dir completeMarker && !ow) = false := by simpa using hf
    rw [sync_active_eq root id bucket p0 ow store dir hf2,
      sync_active_eq root id bucket (p0 ++ ['/']) ow store dir hf2,
      syncActive_cases, syncActive_cases, hn]

/-- Witness for C5 at the selector of the specification's example. -/
theorem c5_witness :
    endsWithSlash ("a/b".toList) = false ∧
    normalize_pfx ("a/b".toList) = normalize_pfx ("a/b".toList ++ ['/']) ∧
    sync_dataset "/r" "d" "b" ("a/b".toList) false exStore none
      = sync_dataset "/r" "d" "b" ("a/b".toList ++ ['/']) false exStore none :=
  ⟨by decide, (c5_trailing_slash_equiv ("a/b".toList) (by decide)).1,
   (c5_trailing_slash_equiv ("a/b".toList) (by decide)).2 "/r" "d" "b" false exStore none⟩

/-- An active sync that returns a result counted exactly the eligible listed
objects and summed exactly their sizes. -/
theorem sync_ok_counts (root id bucket : String) (p0 : List Char) (ow : Bool)
    (store : Store) (dir : DirState) (r : SyncResult)
    (hactive : (hasFile dir completeMarker && !ow) = false)
    (hres : (sync_dataset root id bucket p0 ow store dir).result = SResult.ok r) :
    r.objectCount = (eligObjs store p0).length ∧
    r.bytesWritten = ((eligObjs store p0).map RemoteObj.size).sum := by
  rw [sync_active_eq root id bucket p0 ow store dir hactive, syncActive_cases] at hres
  cases hrp : runPages store.download (normalize_pfx p0) (store.pages (normalize_pfx p0))
      (loopInit dir ow) with
  | fail e st =>
    rw [hrp] at hres
    cases hres
  | ok st =>
    rw [hrp] at hres
    cases hlf : store.listFail (normalize_pfx p0) with
    | some e =>
      rw [hlf] at hres
      cases hres
    | none =>
      rw [hlf] at hres
      have hr : r =
          { datasetId := id, localPath := root ++ "/" ++ id, alreadySynced := false,
            bytesWritten := st.bytes, objectCount := st.count } := by
        cases hres
        rfl
      obtain ⟨hc, hb⟩ := runPages_ok_counts store.download (normalize_pfx p0)
        (store.pages (normalize_pfx p0)) (loopInit dir ow) st hrp
      subst hr
      simp only [eligObjs]
      constructor
      · simpa [loopInit] using hc
      · simpa [loopInit] using hb

/-- C3: for every sync request that enters an active attempt and returns a
result, `objectCount` equals the number of listed objects whose key does not
end in `/` and whose stripped relative key is non-empty, and `bytesWritten`
equals the sum of those objects' sizes; the two totals agree across every
reordering and repartitioning of the listing pages. -/
theorem c3_accounting (root id bucket : String) (p0 : List Char) (ow : Bool)
    (store : Store) (dir : DirState) (r : SyncResult)
    (hactive : (hasFile dir completeMarker && !ow) = false)
    (hres : (sync_dataset root id bucket p0 ow store dir).result = SResult.ok r) :
    r.objectCount = (eligObjs store p0).length
    ∧ r.bytesWritten = ((eligObjs store p0).map RemoteObj.size).sum
    ∧ ∀ (ow2 : Bool) (store2 : Store) (dir2 : DirState) (r2 : SyncResult),
        (hasFile dir2 completeMarker && !ow2) = false →
        (sync_dataset root id bucket p0 ow2 store2 dir2).result = SResult.ok r2 →
        List.Perm ((store2.pages (normalize_pfx p0)).flatten)
          ((store.pages (normalize_pfx p0)).flatten) →
        r2.objectCount = r.objectCount ∧ r2.bytesWritten = r.bytesWritten := by
  obtain ⟨hc1, hb1⟩ := sync_ok_counts root id bucket p0 ow store dir r hactive hres
  refine ⟨hc1, hb1, ?_⟩
  intro ow2 store2 dir2 r2 hactive2 hres2 hperm
  obtain ⟨hc2, hb2⟩ := sync_ok_counts root id bucket p0 ow2 store2 dir2 r2 hactive2 hres2
  have hpf := hperm.filter (fun o => eligKey (normalize_pfx p0) o.key)
  constructor
  · rw [hc1, hc2]
    simp only [eligObjs]
    exact hpf.length_eq
  · rw [hb1, hb2]
    simp only [eligObjs]
    exact (hpf.map RemoteObj.size).sum_eq

/-- Witness for C3 at the specification's example listing. -/
theorem c3_witness :
    (hasFile (none : DirState) completeMarker && !false) = false
    ∧ (sync_dataset "/r" "catA" "b" ("datasets/catA/".toList) false exStore none).result
        = SResult.ok
            { datasetId := "catA", localPath := "/r/catA", alreadySynced := false,
              bytesWritten := 300, objectCount := 2 }
    ∧ (300 : Nat) = ((eligObjs exStore ("datasets/catA/".toList)).map RemoteObj.size).sum
    ∧ (2 : Nat) = (eligObjs exStore ("datasets/catA/".toList)).length := by
  refine ⟨by decide, by decide, ?_, ?_⟩
  · exact (c3_accounting "/r" "catA" "b" ("datasets/catA/".toList) false exStore none
      { datasetId := "catA", localPath := "/r/catA", alreadySynced := false,
        bytesWritten := 300, objectCount := 2 } (by decide) (by decide)).2.1
  · exact (c3_accounting "/r" "catA" "b" ("datasets/catA/".toList) false exStore none
      { datasetId := "catA", localPath := "/r/catA", alreadySynced := false,
        bytesWritten := 300, objectCount := 2 } (by decide) (by decide)).1

/-- C8: an object whose key ends in `/`, or whose key strips to an empty
relative key under the normalized selector (in particular the selector's own
placeholder object), is never downloaded and never counted: dropping all
such objects from the listing leaves the whole outcome unchanged, and no
download call is ever issued for such a key. -/
theorem c8_placeholders_excluded (root id bucket : String) (p0 : List Char) (ow : Bool)
    (store : Store) (dir : DirState) :
    sync_dataset root id bucket p0 ow store dir
      = sync_dataset root id bucket p0 ow (filterStoreElig store) dir
    ∧ ∀ k, (endsWithSlash k = true ∨ relKey (normalize_pfx p0) k = []) →
        SEvent.download k ∉ (sync_dataset root id bucket p0 ow store dir).events := by
  constructor
  · by_cases hf : (hasFile dir completeMarker && !ow) = true
    · unfold sync_dataset
      rw [if_pos hf, if_pos hf]
    · have hf2 : (hasFile dir completeMarker && !ow) = false := by simpa using hf
      rw [sync_active_eq root id bucket p0 ow store dir hf2,
        sync_active_eq root id bucket p0 ow (filterStoreElig store) dir hf2,
        syncActive_cases, syncActive_cases]
      simp only [filterStoreElig]
      rw [runPages_filter_eq]
  · intro k hk
    have helig : eligKey (normalize_pfx p0) k = false := by
      rcases hk with h1 | h1
      · simp [eligKey, h1]
      · simp [eligKey, h1]
    by_cases hf : (hasFile dir completeMarker && !ow) = true
    · unfold sync_dataset
      rw [if_pos hf]
      simp
    · have hf2 : (hasFile dir completeMarker && !ow) = false := by simpa using hf
      rw [sync_active_eq root id bucket p0 ow store dir hf2, syncActive_cases]
      cases hrp : runPages store.download (normalize_pfx p0) (store.pages (normalize_pfx p0))
          (loopInit dir ow) with
      | fail e st =>
        intro hmem
        rcases runPages_events_new store.download (normalize_pfx p0)
            (store.pages (normalize_pfx p0)) (loopInit dir ow) k
            (by rw [hrp]; exact hmem) with h1 | ⟨o, ho, hko, helig2⟩
        · simp [loopInit] at h1
        · rw [hko] at helig2
          exact absurd helig2 (by simp [helig])
      | ok st =>
        cases hlf : store.listFail (normalize_pfx p0) with
        | some e =>
          intro hmem
          rcases runPages_events_new store.download (normalize_pfx p0)
              (store.pages (normalize_pfx p0)) (loopInit dir ow) k
              (by rw [hrp]; exact hmem) with h1 | ⟨o, ho, hko, helig2⟩
          · simp [loopInit] at h1
          · rw [hko] at helig2
            exact absurd helig2 (by simp [helig])
        | none =>
          intro hmem
          rcases runPages_events_new store.download (normalize_pfx p0)
              (store.pages (normalize_pfx p0)) (loopInit dir ow) k
              (by rw [hrp]; exact hmem) with h1 | ⟨o, ho, hko, helig2⟩
          · simp [loopInit] at h1
          · rw [hko] at helig2
            exact absurd helig2 (by simp [helig])

/-- Witness for C8: the directory placeholder of the example listing is never
downloaded. -/
theorem c8_witness :
    SEvent.download ("datasets/catA/".toList)
      ∉ (sync_dataset "/r" "catA" "b" ("datasets/catA".toList) false exStore none).events :=
  (c8_placeholders_excluded "/r" "catA" "b" ("datasets/catA".toList) false exStore none).2
    ("datasets/catA/".toList) (by decide)

/-- C10: a sync without a pre-existing completion marker whose listing
yields no downloadable object succeeds with `alreadySynced = false` and both
counters zero, writes the completion marker, and every subsequent call with
`overwrite = false` — whatever its selector or store — takes the fast path:
it returns `alreadySynced = true` with no object-store call. -/
theorem c10_empty_listing_completes (root id bucket : String) (p0 : List Char) (ow : Bool)
    (store : Store) (dir : DirState)
    (hmarker : hasFile dir completeMarker = false)
    (hlist : store.listFail (normalize_pfx p0) = none)
    (hempty : ∀ o ∈ (store.pages (normalize_pfx p0)).flatten,
        eligKey (normalize_pfx p0) o.key = false) :
    (sync_dataset root id bucket p0 ow store dir).result
      = SResult.ok
          { datasetId := id, localPath := root ++ "/" ++ id,
            alreadySynced := false, bytesWritten := 0, objectCount := 0 }
    ∧ hasFile (sync_dataset root id bucket p0 ow store dir).dir completeMarker = true
    ∧ ∀ (p2 : List Char) (store2 : Store),
        sync_dataset root id bucket p2 false store2
            (sync_dataset root id bucket p0 ow store dir).dir
          = { result := SResult.ok
                { datasetId := id, localPath := root ++ "/" ++ id,
                  alreadySynced := true, bytesWritten := 0, objectCount := 0 },
              dir := (sync_dataset root id bucket p0 ow store dir).dir, events := [] } := by
  have hactive : (hasFile dir completeMarker && !ow) = false := by simp [hmarker]
  have hskip := runPages_skip_all store.download (normalize_pfx p0)
    (store.pages (normalize_pfx p0)) (loopInit dir ow) hempty
  have hout : sync_dataset root id bucket p0 ow store dir =
      { result := SResult.ok
          { datasetId := id, localPath := root ++ "/" ++ id, alreadySynced := false,
            bytesWritten := (loopInit dir ow).bytes, objectCount := (loopInit dir ow).count },
        dir := some (removeFile (addFile (loopInit dir ow).fs completeMarker) inProgressMarker),
        events := (loopInit dir ow).events } := by
    rw [sync_active_eq root id bucket p0 ow store dir hactive, syncActive_cases, hskip, hlist]
  have hcm : hasFile (sync_dataset root id bucket p0 ow store dir).dir completeMarker = true := by
    rw [hout]
    have hmem : completeMarker ∈
        removeFile (addFile (loopInit dir ow).fs completeMarker) inProgressMarker :=
      (mem_removeFile_iff _ _ _).2 ⟨addFile_mem_self _ _, markers_ne⟩
    simp [hasFile, hmem]
  refine ⟨?_, hcm, ?_⟩
  · rw [hout]
    simp [loopInit]
  · intro p2 store2
    exact sync_fastPath root id bucket p2 store2 _ hcm

/-- Witness for C10 at an empty listing, with a second call against a store
that would fail if contacted. -/
theorem c10_witness :
    (sync_dataset "r" "d" "b" ("p".toList) false emptyStore none).result
      = SResult.ok
          { datasetId := "d", localPath := "r/d",
            alreadySynced := false, bytesWritten := 0, objectCount := 0 }
    ∧ hasFile (sync_dataset "r" "d" "b" ("p".toList) false emptyStore none).dir
        completeMarker = true
    ∧ sync_dataset "r" "d" "b" ("q".toList) false cexStore
          (sync_dataset "r" "d" "b" ("p".toList) false emptyStore none).dir
        = { result := SResult.ok
              { datasetId := "d", localPath := "r/d",
                alreadySynced := true, bytesWritten := 0, objectCount := 0 },
            dir := (sync_dataset "r" "d" "b" ("p".toList) false emptyStore none).dir,
            events := [] } :=
  ⟨(c10_empty_listing_completes "r" "d" "b" ("p".toList) false emptyStore none
      (by decide) (by decide) (by simp [emptyStore])).1,
   (c10_empty_listing_completes "r" "d" "b" ("p".toList) false emptyStore none
      (by decide) (by decide) (by simp [emptyStore])).2.1,
   (c10_empty_listing_completes "r" "d" "b" ("p".toList) false emptyStore none
      (by decide) (by decide) (by simp [emptyStore])).2.2 ("q".toList) cexStore⟩

/-- During an active attempt whose listed objects never strip to the
completion marker's name, the completion marker is never among the loop's
files. -/
theorem attempt_no_marker (p0 : List Char) (ow : Bool) (store : Store) (dir : DirState)
    (hactive : (hasFile dir completeMarker && !ow) = false)
    (hnames : ∀ o ∈ (store.pages (normalize_pfx p0)).flatten,
        relKey (normalize_pfx p0) o.key ≠ completeMarker) :
    completeMarker ∉ (runPages store.download (normalize_pfx p0)
      (store.pages (normalize_pfx p0)) (loopInit dir ow)).state.fs := by
  intro hmem
  rcases runPages_fs_new store.download (normalize_pfx p0) (store.pages (normalize_pfx p0))
      (loopInit dir ow) completeMarker hmem with h1 | ⟨o, ho, helig, hx⟩
  · rcases (mem_addFile_iff _ _ _).1 (by simpa [loopInit] using h1) with h2 | h2
    · exact marker_not_in_initFs dir ow hactive h2
    · exact markers_ne h2
  · exact hnames o ho hx.symm

/-- Every successful download recorded during an active attempt has its file
among the loop's files at the end. -/
theorem attempt_good_files (p0 : List Char) (ow : Bool) (store : Store) (dir : DirState) :
    ∀ k, SEvent.download k ∈ (runPages store.download (normalize_pfx p0)
        (store.pages (normalize_pfx p0)) (loopInit dir ow)).state.events →
      store.download k = none →
      relKey (normalize_pfx p0) k ∈ (runPages store.download (normalize_pfx p0)
        (store.pages (normalize_pfx p0)) (loopInit dir ow)).state.fs := by
  apply runPages_good_files
  intro k hk hd
  simp [loopInit] at hk

/-- Every downloaded key of an active attempt is the key of an eligible
listed object. -/
theorem attempt_download_listed (p0 : List Char) (ow : Bool) (store : Store) (dir : DirState) :
    ∀ k, SEvent.download k ∈ (runPages store.download (normalize_pfx p0)
        (store.pages (normalize_pfx p0)) (loopInit dir ow)).state.events →
      ∃ o, o ∈ (store.pages (normalize_pfx p0)).flatten ∧ o.key = k := by
  intro k hk
  rcases runPages_events_new store.download (normalize_pfx p0) (store.pages (normalize_pfx p0))
      (loopInit dir ow) k hk with h1 | ⟨o, ho, hko, helig⟩
  · simp [loopInit] at h1
  · exact ⟨o, ho, hko⟩

/-- C2 counterexample: on a listing that contains remote objects named like
the two marker files, a failing sync leaves the completion marker present
(it was downloaded as data) and deletes the already-downloaded
`.sync_in_progress` file, contradicting the claim as stated. -/
theorem c2_counterexample :
    (sync_dataset "root" "d" "b" ("p".toList) false cexStore none).result = SResult.error "boom"
    ∧ hasFile (sync_dataset "root" "d" "b" ("p".toList) false cexStore none).dir
        completeMarker = true
    ∧ SEvent.download ("p/.sync_in_progress".toList)
        ∈ (sync_dataset "root" "d" "b" ("p".toList) false cexStore none).events
    ∧ cexStore.download ("p/.sync_in_progress".toList) = none
    ∧ hasFile (sync_dataset "root" "d" "b" ("p".toList) false cexStore none).dir
        (relKey (normalize_pfx ("p".toList)) ("p/.sync_in_progress".toList)) = false := by
  decide

/-- C2 (amended): if an active sync raises, the error message is exactly the
failing listing's or download's message, and — provided no listed object's
relative key collides with either marker file name — the completion marker
is absent afterwards, the in-progress marker is absent afterwards, and every
file downloaded before the failure is still on disk. -/
theorem c2_failure_cleanup (root id bucket : String) (p0 : List Char) (ow : Bool)
    (store : Store) (dir : DirState) (e : String)
    (hres : (sync_dataset root id bucket p0 ow store dir).result = SResult.error e)
    (hnames : ∀ o ∈ (store.pages (normalize_pfx p0)).flatten,
        relKey (normalize_pfx p0) o.key ≠ completeMarker ∧
        relKey (normalize_pfx p0) o.key ≠ inProgressMarker) :
    ((∃ k, store.download k = some e) ∨ store.listFail (normalize_pfx p0) = some e)
    ∧ hasFile (sync_dataset root id bucket p0 ow store dir).dir completeMarker = false
    ∧ hasFile (sync_dataset root id bucket p0 ow store dir).dir inProgressMarker = false
    ∧ ∀ k, SEvent.download k ∈ (sync_dataset root id bucket p0 ow store dir).events →
        store.download k = none →
        hasFile (sync_dataset root id bucket p0 ow store dir).dir
          (relKey (normalize_pfx p0) k) = true := by
  have hactive : (hasFile dir completeMarker && !ow) = false := by
    cases hb : (hasFile dir completeMarker && !ow) with
    | false => rfl
    | true =>
      unfold sync_dataset at hres
      rw [if_pos hb] at hres
      cases hres
  rw [sync_active_eq root id bucket p0 ow store dir hactive, syncActive_cases] at hres ⊢
  cases hrp : runPages store.download (normalize_pfx p0) (store.pages (normalize_pfx p0))
      (loopInit dir ow) with
  | fail e2 st =>
    rw [hrp] at hres
    have he : e2 = e := by cases hres; rfl
    subst he
    have hnm := attempt_no_marker p0 ow store dir hactive (fun o ho => (hnames o ho).1)
    rw [hrp] at hnm
    have hnm2 : completeMarker ∉ removeFile st.fs inProgressMarker := by
      intro hm
      exact hnm ((mem_removeFile_iff _ _ _).1 hm).1
    refine ⟨Or.inl (runPages_fail_cause _ _ _ _ _ _ hrp), by simp [hasFile, hnm2],
      inProgress_absent st.fs, ?_⟩
    intro k hk hd
    have hgf := attempt_good_files p0 ow store dir k (by rw [hrp]; exact hk) hd
    rw [hrp] at hgf
    obtain ⟨o, ho, hko⟩ := attempt_download_listed p0 ow store dir k (by rw [hrp]; exact hk)
    have hni : relKey (normalize_pfx p0) k ≠ inProgressMarker := by
      rw [← hko]
      exact (hnames o ho).2
    have hmem : relKey (normalize_pfx p0) k ∈ removeFile st.fs inProgressMarker :=
      (mem_removeFile_iff _ _ _).2 ⟨hgf, hni⟩
    simp [hasFile, hmem]
  | ok st =>
    rw [hrp] at hres
    cases hlf : store.listFail (normalize_pfx p0) with
    | none =>
      rw [hlf] at hres
      cases hres
    | some e2 =>
      rw [hlf] at hres
      have he : e2 = e := by cases hres; rfl
      subst he
      have hnm := attempt_no_marker p0 ow store dir hactive (fun o ho => (hnames o ho).1)
      rw [hrp] at hnm
      have hnm2 : completeMarker ∉ removeFile st.fs inProgressMarker := by
        intro hm
        exact hnm ((mem_removeFile_iff _ _ _).1 hm).1
      refine ⟨Or.inr rfl, by simp [hasFile, hnm2], inProgress_absent st.fs, ?_⟩
      intro k hk hd
      have hgf := attempt_good_files p0 ow store dir k (by rw [hrp]; exact hk) hd
      rw [hrp] at hgf
      obtain ⟨o, ho, hko⟩ := attempt_download_listed p0 ow store dir k (by rw [hrp]; exact hk)
      have hni : relKey (normalize_pfx p0) k ≠ inProgressMarker := by
        rw [← hko]
        exact (hnames o ho).2
      have hmem : relKey (normalize_pfx p0) k ∈ removeFile st.fs inProgressMarker :=
        (mem_removeFile_iff _ _ _).2 ⟨hgf, hni⟩
      simp [hasFile, hmem]

/-- Witness for the amended C2 at a concrete failing sync with ordinary
key names. -/
theorem c2_witness :
    ((∃ k, failStore.download k = some "boom")
      ∨ failStore.listFail (normalize_pfx ("p".toList)) = some "boom")
    ∧ hasFile (sync_dataset "root" "d" "b" ("p".toList) false failStore none).dir
        completeMarker = false
    ∧ hasFile (sync_dataset "root" "d" "b" ("p".toList) false failStore none).dir
        inProgressMarker = false
    ∧ ∀ k, SEvent.download k ∈ (sync_dataset "root" "d" "b" ("p".toList) false failStore none).events →
        failStore.download k = none →
        hasFile (sync_dataset "root" "d" "b" ("p".toList) false failStore none).dir
          (relKey (normalize_pfx ("p".toList)) k) = true :=
  c2_failure_cleanup "root" "d" "b" ("p".toList) false failStore none "boom"
    (by decide) (by decide)

/-- C7 counterexample: with the endpoint variable unset, the serverless
handler does not fail at process start; it runs the request and returns the
configuration error in that request's response. -/
theorem c7_counterexample :
    handler_r2 henvMissing "d1" "b" ("p".toList) emptyStore none
      = (HandlerResp.errorResp
          "R2_ENDPOINT, R2_ACCESS_KEY_ID, and R2_SECRET_ACCESS_KEY must be set",
         none, []) := by
  decide

/-- C7 (amended): a missing endpoint or credential makes the worker's
settings constructor raise when settings are first resolved, before any
object-store access; in the serverless handler the same missing settings are
detected per request inside the sync helper, before any object-store call,
and the error is returned in that request's response. -/
theorem c7_config_error (env : CEnv) (henv : HEnv)
    (hc : env.r2_endpoint = none ∨ env.r2_access_key_id = none ∨
      env.r2_secret_access_key = none)
    (hh : henv.r2_endpoint = none ∨ henv.r2_access_key_id = none ∨
      henv.r2_secret_access_key = none) :
    (∃ msg, get_settings env = SettingsRes.error msg)
    ∧ ∀ (did bucket : String) (pfx : List Char) (store : Store) (dir : DirState),
        did ≠ "" → bucket ≠ "" → pfx ≠ [] →
        handler_r2 henv did bucket pfx store dir
          = (HandlerResp.errorResp
              "R2_ENDPOINT, R2_ACCESS_KEY_ID, and R2_SECRET_ACCESS_KEY must be set",
             dir, []) := by
  constructor
  · cases hpi : pyInt (env.r2_sync_bind_port.getD "8080") with
    | none =>
      refine ⟨"invalid literal for int() with base 10", ?_⟩
      unfold get_settings
      rw [hpi]
    | some bp =>
      by_cases hep : rstripSlash (env.r2_endpoint.getD "") = ""
      · refine ⟨"R2_ENDPOINT is required for the sync worker", ?_⟩
        unfold get_settings
        rw [hpi]
        simp [hep]
      · refine ⟨"R2 access key/secret must be provided", ?_⟩
        have hkey : env.r2_access_key_id.getD "" = "" ∨ env.r2_secret_access_key.getD "" = "" := by
          rcases hc with h | h | h
          · exact absurd (by rw [h]; decide) hep
          · exact Or.inl (by rw [h]; rfl)
          · exact Or.inr (by rw [h]; rfl)
        unfold get_settings
        rw [hpi]
        simp [hep, hkey]
  · intro did bucket pfx store dir hd hb hp
    have hcond : henv.r2_endpoint.getD "" = "" ∨ henv.r2_access_key_id.getD "" = "" ∨
        henv.r2_secret_access_key.getD "" = "" := by
      rcases hh with h | h | h
      · exact Or.inl (by rw [h]; rfl)
      · exact Or.inr (Or.inl (by rw [h]; rfl))
      · exact Or.inr (Or.inr (by rw [h]; rfl))
    have hs : _sync_from_r2 henv did bucket pfx store dir
        = { result := HSyncRes.error
              "R2_ENDPOINT, R2_ACCESS_KEY_ID, and R2_SECRET_ACCESS_KEY must be set",
            dir := dir, events := [] } := by
      unfold _sync_from_r2
      simp [hcond]
    unfold handler_r2
    rw [if_neg (by simp [hd, hb, hp]), hs]

/-- Witness for the amended C7 at concrete environments missing the
endpoint. -/
theorem c7_witness :
    (∃ msg, get_settings cenvMissing = SettingsRes.error msg)
    ∧ handler_r2 henvMissing "d1" "bkt" ("q".toList) cexStore (some [])
        = (HandlerResp.errorResp
            "R2_ENDPOINT, R2_ACCESS_KEY_ID, and R2_SECRET_ACCESS_KEY must be set",
           some [], []) :=
  ⟨(c7_config_error cenvMissing henvMissing (Or.inl rfl) (Or.inl rfl)).1,
   (c7_config_error cenvMissing henvMissing (Or.inl rfl) (Or.inl rfl)).2
     "d1" "bkt" ("q".toList) cexStore (some []) (by decide) (by decide) (by decide)⟩

/-- Witness for C4 at a directory holding stale content and a completion
marker. -/
theorem c4_witness :
    sync_dataset "/r" "catA" "b" ("datasets/catA/".toList) true exStore
        (some ["junk".toList, completeMarker])
      = sync_dataset "/r" "catA" "b" ("datasets/catA/".toList) true exStore none
    ∧ SEvent.list ∈ (sync_dataset "/r" "catA" "b" ("datasets/catA/".toList) true exStore
        (some ["junk".toList, completeMarker])).events :=
  c4_overwrite_resets "/r" "catA" "b" ("datasets/catA/".toList) exStore
    ["junk".toList, completeMarker]

/-- Witness for C9 at a directory holding both markers. -/
theorem c9_witness :
    (∀ p, dataset_status "r" "d" (some [completeMarker, inProgressMarker]) = some p ↔
        (hasFile (some [completeMarker, inProgressMarker]) completeMarker = true
          ∧ p = "r" ++ "/" ++ "d"))
    ∧ (dataset_status "r" "d" (some [completeMarker, inProgressMarker]) = none ↔
        hasFile (some [completeMarker, inProgressMarker]) completeMarker = false)
    ∧ (∀ fs, dataset_status "r" "d" (some (addFile fs inProgressMarker))
          = dataset_status "r" "d" (some fs))
    ∧ (∀ fs, dataset_status "r" "d" (some (removeFile fs inProgressMarker))
          = dataset_status "r" "d" (some fs)) :=
  c9_status_reads_only_completion "r" "d" (some [completeMarker, inProgressMarker])
